import Mathlib

/-!
# Verification of the Rise glossary tooltip script

A shallow embedding of `glossary.js` (hover-tooltip glossary for Articulate
Rise). The script loads a JSON dictionary, builds a normalized-word index,
wires interaction handlers onto `.glossary-term[data-term]` markers, and
manages a single floating tooltip element (show/hide/position).

Modelling conventions:
* JS strings are `String`; absent/`undefined`/`null` string fields are
  `Option String` (the JS `x || ""` idiom becomes `Option.getD ""`).
* `trim` / `toLowerCase` are modelled character-wise (`jsTrim`, `jsToLower`);
  lowercasing is the ASCII case used by the dictionary content.
* A JS `Map` is an association list with `set`-overwrite semantics.
* Pixel coordinates are modelled as `Int` (the positioning logic is pure
  affine arithmetic and branching, identical over any ordered ring).
* The single-threaded event loop is modelled by explicit state passing:
  each event handler is a total function on the tooltip / loader state.
-/

namespace Glossary

/-! ## Strings: trim, lowercase, normalize (glossary.js lines 26–29) -/

def isJsSpace (c : Char) : Bool :=
  c = ' ' || c = '\t' || c = '\n' || c = '\r'

def trimChars (l : List Char) : List Char :=
  ((l.dropWhile isJsSpace).reverse.dropWhile isJsSpace).reverse

def jsTrim (s : String) : String :=
  String.mk (trimChars s.data)

def jsToLower (s : String) : String :=
  String.mk (s.data.map Char.toLower)

/-- `normalize(str, caseSensitive)`: `(str || "").trim()`, lowercased unless
case-sensitive. -/
def normalize (str : Option String) (caseSensitive : Bool) : String :=
  let s := jsTrim (str.getD "")
  if caseSensitive then s else jsToLower s

/-! ## Data model (glossary.json shape) -/

structure TermRec where
  word : Option String
  definition : Option String
  enabled : Option Bool
  image : Option String
  link : Option String
deriving Repr, DecidableEq

structure GlossarySettings where
  caseSensitive : Option Bool
deriving Repr, DecidableEq

/-- The parsed JSON payload: `settings` may be absent; `terms` may be absent
or not an array (then treated as empty); individual entries may be null. -/
structure GlossaryData where
  settings : Option GlossarySettings
  terms : Option (List (Option TermRec))
deriving Repr, DecidableEq

/-! ## JS `Map` with `set`-overwrite semantics -/

def mapSet (m : List (String × TermRec)) (k : String) (v : TermRec) :
    List (String × TermRec) :=
  match m with
  | [] => [(k, v)]
  | (k', v') :: rest =>
    if k' = k then (k, v) :: rest else (k', v') :: mapSet rest k v

def mapGet (m : List (String × TermRec)) (k : String) : Option TermRec :=
  match m with
  | [] => none
  | (k', v) :: rest => if k' = k then some v else mapGet rest k

/-! ## buildMap (glossary.js lines 206–230) -/

/-- `!!(data.settings && typeof data.settings.caseSensitive === "boolean"
? data.settings.caseSensitive : false)`. -/
def resolveCaseSensitive (d : GlossaryData) : Bool :=
  match d.settings with
  | some st =>
    match st.caseSensitive with
    | some b => b
    | none => false
  | none => false

/-- One step of the `terms.forEach` body in `buildMap`. -/
def buildMapStep (cs : Bool) (m : List (String × TermRec)) (t : Option TermRec) :
    List (String × TermRec) :=
  match t with
  | none => m
  | some t =>
    if t.enabled = some false then m
    else
      let key := normalize t.word cs
      if key = "" then m else mapSet m key t

/-- `buildMap`: resolves the case flag, iterates `terms` in order and inserts
the surviving entries. Returns the map together with the flag it was built
with (the shape of `mapCache`). -/
def buildMap (d : GlossaryData) : List (String × TermRec) × Bool :=
  let cs := resolveCaseSensitive d
  let terms := d.terms.getD []
  (terms.foldl (buildMapStep cs) [], cs)

/-! ## Spec-side description of the index (for claim C5)

Written from the spec's words: iterate in order, skip null entries, skip
`enabled === false`, skip empty normalized words, and let later duplicates
overwrite earlier ones — so lookup yields the LAST eligible entry with the
given (non-empty) key. -/

def specEligible (cs : Bool) (t : Option TermRec) : Option (String × TermRec) :=
  match t with
  | none => none
  | some t =>
    if t.enabled = some false then none
    else
      let k := normalize t.word cs
      if k = "" then none else some (k, t)

/-- Spec-side lookup: the last-inserted eligible entry whose normalized word
is `key` (later entries take precedence over earlier ones). -/
def specLookup (terms : List (Option TermRec)) (cs : Bool) (key : String) :
    Option TermRec :=
  match terms with
  | [] => none
  | t :: rest =>
    match specLookup rest cs key with
    | some v => some v
    | none =>
      match specEligible cs t with
      | some (k, v) => if k = key then some v else none
      | none => none

/-! ## loadData (glossary.js lines 197–204)

`loadData` checks `dataCache`, and only assigns it AFTER `await res.json()`
resolves. The event loop is modelled by two explicit transitions: a call
reaching the cache check, and the first fetch resolving. -/

structure LoaderState where
  dataCache : Option GlossaryData
  fetches : Nat
deriving Repr, DecidableEq

def initLoaderState : LoaderState := { dataCache := none, fetches := 0 }

/-- A call to `loadData` running up to its first suspension point: if
`dataCache` is set it returns the cached value; otherwise it issues a fetch
(counted) and suspends awaiting the response. -/
def loadDataCall (s : LoaderState) : LoaderState :=
  match s.dataCache with
  | some _ => s
  | none => { s with fetches := s.fetches + 1 }

/-- A pending fetch resolving with payload `d`: `dataCache = await res.json()`. -/
def loadDataResolve (d : GlossaryData) (s : LoaderState) : LoaderState :=
  { s with dataCache := some d }

/-! ## Marker wiring: attachToTermEl and wireUp (glossary.js lines 247–290)

`attachToTermEl` unconditionally calls `addEventListener` for
mouseenter / mouseleave / focus / blur / click with freshly created closures,
so each call adds one more complete handler set; `bindCount` counts the
handler sets attached to the marker. `tabindex` is only assigned when the
attribute is absent. -/

structure MarkerState where
  bindCount : Nat
  tabindex : Option Int
deriving Repr, DecidableEq

def attachToTermEl (m : MarkerState) : MarkerState :=
  { bindCount := m.bindCount + 1
    tabindex :=
      match m.tabindex with
      | none => some 0
      | some t => some t }

/-- The `nodes.forEach` body of `wireUp` for one marker: look the normalized
`data-term` attribute up in the built map; on a miss the marker is left
completely untouched, on a hit `attachToTermEl` runs. -/
def wireUpMarker (map : List (String × TermRec)) (cs : Bool)
    (raw : Option String) (m : MarkerState) : MarkerState :=
  match mapGet map (normalize raw cs) with
  | none => m
  | some _ => attachToTermEl m

/-! ## Tooltip positioning (glossary.js lines 115–150)

Pure vertical-coordinate computation of `positionTooltip`: document-space
`top`, preferring below the anchor, flipping above on bottom overflow, then
clamping to the top floor. `EDGE_MARGIN_PX = 12` is kept as a parameter so
the theorem covers the sibling snapshot (margin 10) as well. -/

def positionTooltipTop (scrollY anchorTop anchorBottom tipHeight
    clientHeight margin : Int) : Int :=
  let viewTop := scrollY + margin
  let viewBottom := scrollY + clientHeight - margin
  let below := scrollY + anchorBottom + margin
  let flipped :=
    if below + tipHeight > viewBottom then
      scrollY + anchorTop - tipHeight - margin
    else below
  if flipped < viewTop then viewTop else flipped

/-- The claim's description of the top coordinate: the below-placement value
unless that placement's bottom edge would exceed the viewport bottom minus
the margin (then the above-placement value), floored at `scrollY + margin`. -/
def specTooltipTop (scrollY anchorTop anchorBottom tipHeight
    clientHeight margin : Int) : Int :=
  max (scrollY + margin)
    (if scrollY + anchorBottom + margin + tipHeight >
        scrollY + clientHeight - margin then
      scrollY + anchorTop - tipHeight - margin
    else scrollY + anchorBottom + margin)

/-! ## Text escaping and definition rendering (glossary.js lines 152–195)

Every pattern passed to `replaceAll` is a single character, so the chain of
`replaceAll` calls is modelled character-wise. -/

def squote : Char := Char.ofNat 39

def dquote : Char := Char.ofNat 34

def replaceAllChar (c : Char) (r : List Char) : List Char → List Char
  | [] => []
  | ch :: rest =>
    (if ch = c then r else [ch]) ++ replaceAllChar c r rest

/-- `escapeText`: `&` then `<` then `>` then `"` then the apostrophe, each
replaced by its entity everywhere in the string. -/
def escapeText (s : String) : String :=
  String.mk
    (replaceAllChar squote "&#039;".data
      (replaceAllChar dquote "&quot;".data
        (replaceAllChar '>' "&gt;".data
          (replaceAllChar '<' "&lt;".data
            (replaceAllChar '&' "&amp;".data s.data)))))

/-- `escapeAttr`: `&`, `"`, `<`, `>` (in that order) replaced by entities. -/
def escapeAttr (s : String) : String :=
  String.mk
    (replaceAllChar '>' "&gt;".data
      (replaceAllChar '<' "&lt;".data
        (replaceAllChar dquote "&quot;".data
          (replaceAllChar '&' "&amp;".data s.data))))

/-- The fixed markup surrounding the escaped definition text. -/
def defBlockOpen : String := "<div class=\"glossary-tooltip__def\">"

def defBlockClose : String := "</div>"

def mediaBlock (img : String) : String :=
  "\n        <div class=\"glossary-tooltip__media\">\n          <img src=\"" ++
    escapeAttr img ++
    "\" alt=\"\" style=\"max-width:100%; height:auto; border-radius:6px;\" />\n        </div>"

def linkBlock (link : String) : String :=
  "\n        <div class=\"glossary-tooltip__link\">\n          <a href=\"" ++
    escapeAttr link ++
    "\" target=\"_blank\" rel=\"noopener noreferrer\">Learn more</a>\n        </div>"

/-- `renderDefinition`: the escaped, trimmed definition in its block, then
the optional media and link blocks when those fields are non-empty after
trimming. -/
def renderDefinition (t : TermRec) : String :=
  let d := jsTrim (t.definition.getD "")
  let img := jsTrim (t.image.getD "")
  let link := jsTrim (t.link.getD "")
  let html := defBlockOpen ++ escapeText d ++ defBlockClose
  let html := if img = "" then html else html ++ mediaBlock img
  let html := if link = "" then html else html ++ linkBlock link
  html

/-! ## Tooltip element state machine (glossary.js lines 76–109, 232–274)

The DOM singletons `tooltipEl` / `activeAnchor` and the tooltip element's
`display` and `innerHTML` are gathered in `TipState`; `created = false`
means `tooltipEl === null` (the element's fields then model absence of an
element and are `none`-like defaults). Anchors are identified by `Nat` ids
(DOM reference equality becomes id equality). -/

inductive Disp
  | none
  | block
deriving Repr, DecidableEq

structure TipState where
  created : Bool
  display : Disp
  content : String
  anchor : Option Nat
deriving Repr, DecidableEq

def initTipState : TipState :=
  { created := false, display := Disp.none, content := "", anchor := none }

/-- `createTooltip`: returns the existing element, or creates it hidden and
empty. `activeAnchor` is not touched. -/
def createTooltip (s : TipState) : TipState :=
  if s.created then s
  else { created := true, display := Disp.none, content := "", anchor := s.anchor }

/-- `hideTooltip`: `if (!tooltipEl) return;` then hide, clear innerHTML and
clear `activeAnchor`. -/
def hideTooltip (s : TipState) : TipState :=
  if s.created then
    { s with display := Disp.none, content := "", anchor := none }
  else s

/-- The statement sequence of `showTooltip`, one state per executed
statement, so that intermediate states are observable:
`createTooltip()`, `tip.innerHTML = renderDefinition(termObj)`,
`tip.style.display = "block"`, `activeAnchor = anchorEl`. -/
def showStep1 (s : TipState) : TipState := createTooltip s

def showStep2 (t : TermRec) (s : TipState) : TipState :=
  { s with content := renderDefinition t }

def showStep3 (s : TipState) : TipState :=
  { s with display := Disp.block }

def showStep4 (a : Nat) (s : TipState) : TipState :=
  { s with anchor := some a }

def showTooltip (a : Nat) (t : TermRec) (s : TipState) : TipState :=
  showStep4 a (showStep3 (showStep2 t (showStep1 s)))

/-- The intermediate states `showTooltip` passes through, in order. -/
def showTrace (a : Nat) (t : TermRec) (s : TipState) : List TipState :=
  [showStep1 s,
   showStep2 t (showStep1 s),
   showStep3 (showStep2 t (showStep1 s)),
   showTooltip a t s]

/-- The click handler attached to a bound marker (lines 265–274): toggle off
when the tooltip is visible and anchored to this very marker, otherwise show
for this marker. -/
def clickOn (a : Nat) (t : TermRec) (s : TipState) : TipState :=
  if s.anchor = some a ∧ s.created = true ∧ s.display = Disp.block then
    hideTooltip s
  else showTooltip a t s

/-- `document`-level handlers and all other complete events that can touch
the tooltip state. `outsideClick`'s two flags say whether the click target's
ancestry contained a `.glossary-term` or the tooltip element. -/
inductive TipOp
  | create
  | showEvt (a : Nat) (t : TermRec)
  | hideTimerFired
  | escapeKey
  | outsideClick (clickedTerm clickedTooltip : Bool)
  | clickMarker (a : Nat) (t : TermRec)

def applyOp (op : TipOp) (s : TipState) : TipState :=
  match op with
  | TipOp.create => createTooltip s
  | TipOp.showEvt a t => showTooltip a t s
  | TipOp.hideTimerFired => hideTooltip s
  | TipOp.escapeKey => hideTooltip s
  | TipOp.outsideClick ct cp =>
    if s.created = false then s
    else if ct = false ∧ cp = false then hideTooltip s
    else s
  | TipOp.clickMarker a t => clickOn a t s

/-- States reachable from the initial state by complete event-handler runs. -/
inductive ReachableTip : TipState → Prop
  | init : ReachableTip initTipState
  | step {s : TipState} (op : TipOp) : ReachableTip s → ReachableTip (applyOp op s)

/-! ## boot retry schedule (glossary.js lines 305–311)

`boot(retries)` runs `wireUp().catch(console.warn)` — an async call whose
failure is caught on the promise, never thrown synchronously — then, unless
`retries <= 0`, schedules `boot(retries - 1)`. `bootTrace fail i r` is the
list of pass outcomes starting at pass index `i` with `r` retries left,
where `fail j` says whether pass `j`'s `wireUp` rejects. -/

inductive PassResult
  | ok
  | warned
deriving Repr, DecidableEq

def passOutcome (fail : Nat → Bool) (i : Nat) : PassResult :=
  if fail i then PassResult.warned else PassResult.ok

def bootTrace (fail : Nat → Bool) (i : Nat) : Nat → List PassResult
  | 0 => [passOutcome fail i]
  | r + 1 => passOutcome fail i :: bootTrace fail (i + 1) r

/-! ## Concrete data used to evaluate the definitions -/

def exFirst : TermRec :=
  { word := some "A", definition := some "first",
    enabled := none, image := none, link := none }

def exSecond : TermRec :=
  { word := some "A", definition := some "second",
    enabled := none, image := none, link := none }

def exData : GlossaryData :=
  { settings := none, terms := some [some exFirst, some exSecond] }

/-- A visible tooltip state anchored to marker `1`. -/
def sVis : TipState :=
  { created := true, display := Disp.block, content := "x", anchor := some 1 }

/-- The `activeAnchor` side of the TooltipState invariant: when no anchor is
active, the element is hidden and emptied. -/
def tipInvariant (s : TipState) : Prop :=
  s.anchor = none → s.display = Disp.none ∧ s.content = ""

/-! ## Helper lemmas about the index -/

theorem mapGet_mapSet (m : List (String × TermRec)) (k k' : String) (v : TermRec) :
    mapGet (mapSet m k v) k' = if k = k' then some v else mapGet m k' := by
  induction m with
  | nil => rfl
  | cons hd tl ih =>
    obtain ⟨a, b⟩ := hd
    by_cases h1 : a = k
    · subst h1
      have hs : mapSet ((a, b) :: tl) a v = (a, v) :: tl := by
        simp [mapSet]
      rw [hs]
      by_cases h : a = k' <;> simp [mapGet, h]
    · have hs : mapSet ((a, b) :: tl) k v = (a, b) :: mapSet tl k v := by
        simp [mapSet, h1]
      rw [hs]
      by_cases h2 : a = k'
      · have h3 : ¬ (k = k') := fun h => h1 (h2.trans h.symm)
        simp [mapGet, h2, h3]
      · simp [mapGet, h2, ih]

theorem mapGet_foldl_buildMapStep (cs : Bool) (terms : List (Option TermRec))
    (m : List (String × TermRec)) (key : String) :
    mapGet (terms.foldl (buildMapStep cs) m) key =
      match specLookup terms cs key with
      | some v => some v
      | none => mapGet m key := by
  induction terms generalizing m with
  | nil => simp [specLookup]
  | cons t rest ih =>
    simp only [List.foldl_cons]
    rw [ih]
    cases hrest : specLookup rest cs key with
    | some v => simp [specLookup, hrest]
    | none =>
      simp only [specLookup, hrest]
      cases t with
      | none => simp [buildMapStep, specEligible]
      | some t =>
        by_cases hen : t.enabled = some false
        · simp [buildMapStep, specEligible, hen]
        · by_cases hk : normalize t.word cs = ""
          · simp [buildMapStep, specEligible, hen, hk]
          · by_cases heq : normalize t.word cs = key
            · have hk2 : ¬ key = "" := heq ▸ hk
              simp [buildMapStep, specEligible, hen, hk2, mapGet_mapSet, heq]
            · simp [buildMapStep, specEligible, hen, hk, mapGet_mapSet, heq]

theorem specLookup_empty_key (terms : List (Option TermRec)) (cs : Bool) :
    specLookup terms cs "" = none := by
  induction terms with
  | nil => rfl
  | cons t rest ih =>
    simp only [specLookup, ih]
    cases t with
    | none => rfl
    | some t =>
      by_cases hen : t.enabled = some false
      · simp [specEligible, hen]
      · by_cases hk : normalize t.word cs = ""
        · simp [specEligible, hen, hk]
        · simp [specEligible, hen, hk]

/-! ## Claim theorems -/

/-- C5: for every terms sequence, the built index agrees with the spec-side
description — iterate in order, skip null entries, skip `enabled === false`,
skip empty normalized words, later duplicates overwrite earlier ones — and on
the concrete duplicated key `"A"`/`"A"`, lookup of `"a"` yields the second
entry. -/
theorem C5_buildMap_matches_spec :
    (∀ (d : GlossaryData) (key : String),
      mapGet (buildMap d).1 key =
        specLookup (d.terms.getD []) (resolveCaseSensitive d) key) ∧
    mapGet (buildMap exData).1 "a" = some exSecond := by
  constructor
  · intro d key
    have h := mapGet_foldl_buildMapStep (resolveCaseSensitive d)
      (d.terms.getD []) [] key
    simp only [buildMap]
    rw [h]
    cases specLookup (d.terms.getD []) (resolveCaseSensitive d) key <;>
      simp [mapGet]
  · decide

/-- C9: a marker whose `data-term` attribute is absent, empty, or
whitespace-only normalizes to the empty string; the built index never
contains the empty-string key; and `wireUp` leaves such a marker completely
untouched. -/
theorem C9_blank_marker_never_bound (d : GlossaryData) (raw : Option String)
    (m : MarkerState) (h : jsTrim (raw.getD "") = "") :
    normalize raw (buildMap d).2 = "" ∧
    mapGet (buildMap d).1 "" = none ∧
    wireUpMarker (buildMap d).1 (buildMap d).2 raw m = m := by
  have hnorm : ∀ cs : Bool, normalize raw cs = "" := by
    intro cs
    cases cs <;> simp [normalize, h, jsToLower]
  have hget : mapGet (buildMap d).1 "" = none := by
    simp only [buildMap]
    rw [mapGet_foldl_buildMapStep, specLookup_empty_key]
    rfl
  refine ⟨hnorm _, hget, ?_⟩
  simp [wireUpMarker, hnorm, hget]

/-- C9 witness: a whitespace-only `data-term` on the duplicated-`"A"`
dictionary is left unbound. -/
theorem C9_witness :
    jsTrim ((some "   ").getD "") = "" ∧
    wireUpMarker (buildMap exData).1 (buildMap exData).2 (some "   ")
      { bindCount := 0, tabindex := none } =
      { bindCount := 0, tabindex := none } :=
  ⟨by decide,
   (C9_blank_marker_never_bound exData (some "   ")
     { bindCount := 0, tabindex := none } (by decide)).2.2⟩

/-- C1 counterexample: the claim says an already-wired marker gains no
additional listeners on a second `wireUp` pass ("exactly one active handler
set"). On the code, two passes over the same matched marker leave TWO handler
sets attached, because `attachToTermEl` is re-run unconditionally. -/
theorem C1_counterexample :
    (wireUpMarker (buildMap exData).1 (buildMap exData).2 (some "A")
      (wireUpMarker (buildMap exData).1 (buildMap exData).2 (some "A")
        { bindCount := 0, tabindex := none })).bindCount = 2 ∧
    ¬ ((wireUpMarker (buildMap exData).1 (buildMap exData).2 (some "A")
      (wireUpMarker (buildMap exData).1 (buildMap exData).2 (some "A")
        { bindCount := 0, tabindex := none })).bindCount = 1) := by
  decide

/-- C1 amended: the bind pass is NOT idempotent. `wireUp` has no
already-bound guard: every pass whose lookup matches re-runs
`attachToTermEl`, which unconditionally attaches a fresh handler set, so
after `k` passes a matched marker carries `k` handler sets. -/
theorem C1_bind_pass_accumulates (map : List (String × TermRec)) (cs : Bool)
    (raw : Option String) (m : MarkerState) (k : Nat)
    (h : (mapGet map (normalize raw cs)).isSome = true) :
    ((fun st => wireUpMarker map cs raw st)^[k] m).bindCount =
      m.bindCount + k := by
  induction k generalizing m with
  | zero => simp
  | succ n ih =>
    rw [Function.iterate_succ_apply]
    cases hm : mapGet map (normalize raw cs) with
    | none => rw [hm] at h; exact absurd h (by simp)
    | some v =>
      have : wireUpMarker map cs raw m = attachToTermEl m := by
        simp [wireUpMarker, hm]
      rw [this, ih]
      simp [attachToTermEl]
      omega

/-- C1 witness: two passes over a matched marker starting unbound yield a
bind count of 2. -/
theorem C1_witness :
    ((fun st => wireUpMarker (buildMap exData).1 (buildMap exData).2
        (some "A") st)^[2]
      { bindCount := 0, tabindex := none }).bindCount = 0 + 2 :=
  C1_bind_pass_accumulates (buildMap exData).1 (buildMap exData).2 (some "A")
    { bindCount := 0, tabindex := none } 2 (by decide)

/-- C2 counterexample: the claim says two loader calls made before the first
fetch resolves issue exactly one fetch. On the code, `dataCache` is only
assigned after `await res.json()`, so both calls see an empty cache and each
issues its own fetch: two fetches, not one. -/
theorem C2_counterexample :
    (loadDataCall (loadDataCall initLoaderState)).fetches = 2 ∧
    ¬ ((loadDataCall (loadDataCall initLoaderState)).fetches = 1) := by
  decide

/-- C2 amended: the loader deduplicates only AFTER the first fetch has
resolved. A call finding `dataCache` empty issues its own fetch (so each
call made while the first fetch is still in flight adds one more fetch);
a call after `dataCache` is populated — in particular right after the first
resolution — issues none. -/
theorem C2_memoized_only_after_resolve (s : LoaderState) :
    (s.dataCache = none →
      loadDataCall s = { s with fetches := s.fetches + 1 }) ∧
    (∀ d, s.dataCache = some d → loadDataCall s = s) ∧
    (∀ d, loadDataCall (loadDataResolve d s) = loadDataResolve d s) := by
  refine ⟨fun h => ?_, fun d h => ?_, fun d => ?_⟩
  · simp [loadDataCall, h]
  · simp [loadDataCall, h]
  · simp [loadDataCall, loadDataResolve]

/-- C2 witness: the first call from the initial state issues one fetch; a
call after resolution issues none. -/
theorem C2_witness :
    loadDataCall initLoaderState = { dataCache := none, fetches := 1 } ∧
    loadDataCall (loadDataResolve exData initLoaderState) =
      loadDataResolve exData initLoaderState :=
  ⟨(C2_memoized_only_after_resolve initLoaderState).1 rfl,
   (C2_memoized_only_after_resolve initLoaderState).2.2 exData⟩

/-- C3: for every anchor rectangle, tooltip height, scroll offset and
viewport height, the computed top coordinate is the below-placement value
`scrollY + anchor.bottom + margin` unless that placement's bottom edge would
exceed the viewport bottom minus the margin, in which case it is the
above-placement value `scrollY + anchor.top - tipHeight - margin`; the final
value is this selection floored at `scrollY + margin`, so it is never less
than the viewport-top floor. -/
theorem C3_position_top (sY aT aB tH cH mg : Int) :
    positionTooltipTop sY aT aB tH cH mg = specTooltipTop sY aT aB tH cH mg ∧
    sY + mg ≤ positionTooltipTop sY aT aB tH cH mg := by
  simp only [positionTooltipTop, specTooltipTop]
  rw [max_def]
  constructor <;> split_ifs <;> omega

/-- C3 witness: an anchor near the bottom (anchor bottom 580, viewport height
600, tooltip height 100, margin 12, no scroll) flips above, and the result
respects the floor. -/
theorem C3_witness :
    positionTooltipTop 0 560 580 100 600 12 = specTooltipTop 0 560 580 100 600 12 ∧
    0 + 12 ≤ positionTooltipTop 0 560 580 100 600 12 :=
  C3_position_top 0 560 580 100 600 12

/-- C10: hiding before the tooltip element has ever been created is a safe
no-op: `hideTooltip` (also reached from the global Escape handler, the
outside-click handler and the hide timer) returns immediately and changes no
state. -/
theorem C10_hide_before_create_noop (s : TipState) (h : s.created = false) :
    hideTooltip s = s ∧
    applyOp TipOp.escapeKey s = s ∧
    applyOp TipOp.hideTimerFired s = s ∧
    ∀ ct cp, applyOp (TipOp.outsideClick ct cp) s = s := by
  have hh : hideTooltip s = s := by simp [hideTooltip, h]
  refine ⟨hh, hh, hh, fun ct cp => ?_⟩
  simp [applyOp, h]

/-- C10 witness: hiding from the initial state (no element yet) is the
identity. -/
theorem C10_witness :
    hideTooltip initTipState = initTipState ∧
    applyOp TipOp.escapeKey initTipState = initTipState :=
  ⟨(C10_hide_before_create_noop initTipState rfl).1,
   (C10_hide_before_create_noop initTipState rfl).2.1⟩

/-- C8: the retry schedule of `boot` always performs all of its scheduled
passes — pass `j` is `warned` exactly when that pass's `wireUp` rejects (the
failure is caught and logged, never rethrown) and `ok` otherwise — so a
failing pass never shortens the schedule: starting with `r` retries left,
exactly `r + 1` passes run regardless of which passes fail, and then the
trace ends. -/
theorem C8_boot_schedule (fail : Nat → Bool) (i r : Nat) :
    bootTrace fail i r =
      (List.range (r + 1)).map (fun j => passOutcome fail (i + j)) ∧
    (bootTrace fail i r).length = r + 1 := by
  have key : ∀ r i, bootTrace fail i r =
      (List.range (r + 1)).map (fun j => passOutcome fail (i + j)) := by
    intro r
    induction r with
    | zero => intro i; simp [bootTrace, List.range_succ]
    | succ n ih =>
      intro i
      have hr : List.range (n + 1 + 1) =
          0 :: (List.range (n + 1)).map Nat.succ := List.range_succ_eq_map (n + 1)
      rw [hr]
      simp only [List.map_cons, List.map_map]
      have harg : (fun j => passOutcome fail (i + j)) ∘ Nat.succ =
          fun j => passOutcome fail (i + 1 + j) := by
        funext j
        simp only [Function.comp]
        congr 1
        omega
      rw [harg]
      simp only [bootTrace, Nat.add_zero]
      rw [ih (i + 1)]
  refine ⟨key r i, ?_⟩
  rw [key r i]
  simp

/-- C4: clicking a bound marker toggles. If the tooltip is visible and its
active anchor is that marker, the click runs `hideTooltip`; otherwise the
click runs `showTooltip` for the clicked marker, ending visible and anchored
there; and switching from a different marker goes through the `showTooltip`
statement sequence in which every intermediate state still has
`display = block` — no intermediate hidden state. -/
theorem C4_click_toggles (s : TipState) (a a2 : Nat) (t : TermRec) :
    (s.anchor = some a ∧ s.created = true ∧ s.display = Disp.block →
      clickOn a t s = hideTooltip s ∧
      (clickOn a t s).display = Disp.none ∧ (clickOn a t s).anchor = none) ∧
    (¬ (s.anchor = some a ∧ s.created = true ∧ s.display = Disp.block) →
      clickOn a t s = showTooltip a t s ∧
      (clickOn a t s).display = Disp.block ∧ (clickOn a t s).anchor = some a) ∧
    (s.anchor = some a2 ∧ a2 ≠ a ∧ s.created = true ∧ s.display = Disp.block →
      clickOn a t s = showTooltip a t s ∧
      ∀ st ∈ showTrace a t s, st.display = Disp.block) := by
  refine ⟨fun h => ?_, fun h => ?_, fun h => ?_⟩
  · obtain ⟨h1, h2, h3⟩ := h
    have hc : clickOn a t s = hideTooltip s := by
      simp [clickOn, h1, h2, h3]
    refine ⟨hc, ?_, ?_⟩ <;> rw [hc] <;> simp [hideTooltip, h2]
  · have hc : clickOn a t s = showTooltip a t s := by
      simp only [clickOn, if_neg h]
    refine ⟨hc, ?_, ?_⟩ <;> rw [hc] <;>
      simp [showTooltip, showStep4, showStep3, showStep2, showStep1]
  · obtain ⟨h1, hne, h2, h3⟩ := h
    have hno : ¬ (s.anchor = some a ∧ s.created = true ∧ s.display = Disp.block) :=
      fun hcon => hne (Option.some.inj (h1.symm.trans hcon.1))
    refine ⟨by simp only [clickOn, if_neg hno], ?_⟩
    intro st hst
    have hcr : createTooltip s = s := by simp [createTooltip, h2]
    simp only [showTrace, showTooltip, showStep1, showStep2, showStep3,
      showStep4, hcr, List.mem_cons, List.not_mem_nil, or_false] at hst
    rcases hst with h | h | h | h <;> subst h <;> simp [h3]

/-- C4 witness: on a visible tooltip anchored to marker 1, clicking marker 1
hides, clicking marker 2 shows anchored to 2, and the switch's intermediate
states all stay displayed. -/
theorem C4_witness :
    (clickOn 1 exFirst sVis).display = Disp.none ∧
    (clickOn 2 exFirst sVis).anchor = some 2 ∧
    ∀ st ∈ showTrace 2 exFirst sVis, st.display = Disp.block :=
  ⟨((C4_click_toggles sVis 1 1 exFirst).1 ⟨rfl, rfl, rfl⟩).2.1,
   ((C4_click_toggles sVis 2 1 exFirst).2.1 (by decide)).2.2,
   ((C4_click_toggles sVis 2 1 exFirst).2.2 ⟨rfl, by decide, rfl, rfl⟩).2⟩

/-- C6: every hide transition on an existing element leaves the tooltip
hidden, with its content emptied and the active anchor cleared; and in every
reachable state, `activeAnchor = none` implies the element is hidden and
empty. -/
theorem C6_hide_clears_state :
    (∀ s : TipState, s.created = true →
      (hideTooltip s).display = Disp.none ∧ (hideTooltip s).content = "" ∧
        (hideTooltip s).anchor = none) ∧
    (∀ s : TipState, ReachableTip s → tipInvariant s) := by
  constructor
  · intro s h
    simp [hideTooltip, h]
  · intro s hs
    induction hs with
    | init => intro h; exact ⟨rfl, rfl⟩
    | @step s op hs ih =>
      have hhide : tipInvariant (hideTooltip s) := by
        cases hcr : s.created with
        | true => intro h; simp [hideTooltip, hcr]
        | false =>
          have : hideTooltip s = s := by simp [hideTooltip, hcr]
          rw [this]; exact ih
      cases op with
      | create =>
        simp only [applyOp]
        cases hcr : s.created with
        | true =>
          have : createTooltip s = s := by simp [createTooltip, hcr]
          rw [this]; exact ih
        | false =>
          intro h
          simp [createTooltip, hcr]
      | showEvt a t =>
        simp only [applyOp]
        intro h
        simp [showTooltip, showStep4] at h
      | hideTimerFired => exact hhide
      | escapeKey => exact hhide
      | outsideClick ct cp =>
        simp only [applyOp]
        split_ifs with h1 h2
        · exact ih
        · exact hhide
        · exact ih
      | clickMarker a t =>
        simp only [applyOp, clickOn]
        split_ifs with h1
        · exact hhide
        · intro h
          simp [showTooltip, showStep4] at h

/-- C6 witness: hiding the concrete visible state empties and clears it, and
the (reachable) initial state with no anchor is hidden and empty. -/
theorem C6_witness :
    ((hideTooltip sVis).display = Disp.none ∧ (hideTooltip sVis).content = "" ∧
      (hideTooltip sVis).anchor = none) ∧
    (initTipState.display = Disp.none ∧ initTipState.content = "") :=
  ⟨C6_hide_clears_state.1 sVis rfl,
   C6_hide_clears_state.2 initTipState ReachableTip.init rfl⟩

theorem mem_of_mem_replaceAllChar {x c : Char} {r s : List Char}
    (hx : x ∈ replaceAllChar c r s) : x ∈ r ∨ x ∈ s := by
  induction s with
  | nil => cases hx
  | cons ch rest ih =>
    simp only [replaceAllChar, List.mem_append] at hx
    rcases hx with h | h
    · by_cases hc : ch = c
      · rw [if_pos hc] at h
        exact Or.inl h
      · rw [if_neg hc] at h
        simp only [List.mem_singleton] at h
        subst h
        exact Or.inr (List.mem_cons_self _ _)
    · rcases ih h with h' | h'
      · exact Or.inl h'
      · exact Or.inr (List.mem_cons_of_mem _ h')

theorem not_mem_replaceAllChar_self {c : Char} {r : List Char} (s : List Char)
    (hr : c ∉ r) : c ∉ replaceAllChar c r s := by
  induction s with
  | nil => simp [replaceAllChar]
  | cons ch rest ih =>
    simp only [replaceAllChar, List.mem_append]
    rintro (h | h)
    · by_cases hc : ch = c
      · rw [if_pos hc] at h
        exact hr h
      · rw [if_neg hc] at h
        simp only [List.mem_singleton] at h
        exact hc h.symm
    · exact ih h

theorem not_mem_replaceAllChar {x c : Char} {r : List Char} (s : List Char)
    (hxr : x ∉ r) (hxs : x ∉ s) : x ∉ replaceAllChar c r s := fun h =>
  (mem_of_mem_replaceAllChar h).elim hxr hxs

/-- C7: the text inserted into the tooltip's definition block is
`escapeText` of the trimmed definition, whose output never contains a raw
`<`, `>` or `"` — so a definition containing `<script>` is rendered as the
literal entity text `&lt;script&gt;`. -/
theorem C7_definition_escaped :
    (∀ d : String,
      '<' ∉ (escapeText d).data ∧ '>' ∉ (escapeText d).data ∧
        dquote ∉ (escapeText d).data) ∧
    escapeText "<script>" = "&lt;script&gt;" ∧
    (∀ (w d0 : Option String) (e : Option Bool),
      renderDefinition
        { word := w, definition := d0, enabled := e, image := none, link := none } =
        defBlockOpen ++ escapeText (jsTrim (d0.getD "")) ++ defBlockClose) := by
  refine ⟨fun d => ⟨?_, ?_, ?_⟩, by decide, fun w d0 e => ?_⟩
  · simp only [escapeText]
    exact not_mem_replaceAllChar _ (by decide)
      (not_mem_replaceAllChar _ (by decide)
        (not_mem_replaceAllChar _ (by decide)
          (not_mem_replaceAllChar_self _ (by decide))))
  · simp only [escapeText]
    exact not_mem_replaceAllChar _ (by decide)
      (not_mem_replaceAllChar _ (by decide)
        (not_mem_replaceAllChar_self _ (by decide)))
  · simp only [escapeText]
    exact not_mem_replaceAllChar _ (by decide)
      (not_mem_replaceAllChar_self _ (by decide))
  · have h1 : jsTrim ((none : Option String).getD "") = "" := rfl
    have h2 : jsTrim "" = "" := rfl
    simp [renderDefinition, h1, h2]

end Glossary
